import Mathlib

/-!
Shallow embedding of the PBF block-decoding pipeline of src/pbf/mod.rs
(crate osmio). Pure Rust functions become Lean functions; Rust code that can
abort the process (assert!, unreachable!, Option::unwrap, out-of-bounds slice
indexing) is modelled by the outcome type PRes, whose panic constructor marks
a process abort. Machine integers are modelled as Int; the two truncating
casts that the source performs (i64 as i32, and as u32 when storing metadata)
are made explicit with toI32 / toU32. Floating-point coordinate conversion
(the final multiplication by 1e-9 as f32) is not modelled: nodes store the
scaled integer value lat_offset + granularity * accumulated instead.

The generated protobuf modules fileformat.rs / osmformat.rs and the crate
root (obj_types, ObjId, TimestampFormat, the OSMReader trait) are not under
src/; their shapes are modelled from the spec (sections 3 and 6), while every
algorithmic step below is translated from src/pbf/mod.rs itself.
-/

set_option linter.unusedVariables false

/-- Outcome of running a piece of Rust code that may abort the process:
ok carries the value, panic marks an abort (assert!, unwrap, unreachable!,
or out-of-bounds indexing). -/
inductive PRes (α : Type) where
  | ok (a : α) : PRes α
  | panic : PRes α
deriving DecidableEq

/-- Sequencing of possibly-aborting computations: an abort propagates. -/
def PRes.bind {α β : Type} : PRes α → (α → PRes β) → PRes β
  | .ok a, f => f a
  | .panic, _ => .panic

/-- Mapping over the result of a possibly-aborting computation. -/
def PRes.map {α β : Type} (f : α → β) : PRes α → PRes β
  | .ok a => .ok (f a)
  | .panic => .panic

/-- Extract the value of an ok outcome, with a default for panic. -/
def PRes.getD {α : Type} : PRes α → α → α
  | .ok a, _ => a
  | .panic, d => d

/-- Rust slice indexing xs[i] walking a shared index over a column is modelled
by consuming the unread suffix of the column: reading the head. An exhausted
suffix is exactly an out-of-bounds index, which panics. -/
def headP {α : Type} : List α → PRes (α × List α)
  | [] => .panic
  | x :: xs => .ok (x, xs)

/-- Rust slice.get(i).unwrap_or(default) on the unread suffix of a column:
head of the suffix, or the default when the column is exhausted. -/
def headD {α : Type} (l : List α) (d : α) : α × List α :=
  match l with
  | [] => (d, [])
  | x :: xs => (x, xs)

/-- Rust assert!: continue on true, abort the process on false. -/
def assertP (p : Prop) [Decidable p] : PRes Unit :=
  if p then .ok () else .panic

/-- Rust stringtable[idx as usize] where idx is signed: a negative index wraps
to a huge usize, so any index outside 0..len panics. -/
def stGet (st : List (Option String)) (idx : Int) : PRes (Option String) :=
  if h : 0 ≤ idx ∧ idx.toNat < st.length then .ok (st.get ⟨idx.toNat, h.2⟩)
  else .panic

/-- Rust stringtable[idx as usize].clone().unwrap(): panics when the index is
out of bounds or the entry is absent (the raw bytes were not valid UTF-8). -/
def stGetUnwrap (st : List (Option String)) (idx : Int) : PRes String :=
  (stGet st idx).bind fun o =>
    match o with
    | some s => .ok s
    | none => .panic

/-- Rust cast x as i32 applied to an i64 value: wrap into the signed 32-bit
range. -/
def toI32 (i : Int) : Int := (i + 2147483648) % 4294967296 - 2147483648

/-- Rust cast x as u32: wrap into the unsigned 32-bit range. -/
def toU32 (i : Int) : Int := i % 4294967296

/-- Modelled from the spec: the per-node metadata columns of the dense
encoding (the generated osmformat.rs is not under src/; field names follow
the accessors used in src/pbf/mod.rs). get_denseinfo yields an empty default
when the record is absent, so the columns are plain lists. -/
structure DenseInfo where
  uid : List Int
  changeset : List Int
  user_sid : List Int
  timestamp : List Int
  version : List Int
  visible : List Bool
deriving DecidableEq

/-- Modelled from the spec: the dense-node payload - parallel delta columns
plus the optional flat sentinel-delimited tag-index array. -/
structure DenseNodes where
  id : List Int
  lat : List Int
  lon : List Int
  keys_vals : List Int
  denseinfo : DenseInfo
deriving DecidableEq

/-- Modelled from the spec: the non-delta metadata record of ways and
relations; get_info yields a default when absent, so it is a plain field. -/
structure Info where
  version : Int
  timestamp : Int
  changeset : Int
  uid : Int
  user_sid : Int
  visible : Bool
deriving DecidableEq

/-- Modelled from the spec: one way message - absolute id, parallel
key/value index arrays, delta-coded node references, metadata. -/
structure WayMsg where
  id : Int
  keys : List Int
  vals : List Int
  refs : List Int
  info : Info
deriving DecidableEq

/-- The fixed member-type enumeration of the wire format. -/
inductive MemberType where
  | NODE
  | WAY
  | RELATION
deriving DecidableEq

/-- Modelled from the spec: one relation message - absolute id, tag index
arrays, role string indices, delta-coded member ids, member types,
metadata. -/
structure RelationMsg where
  id : Int
  keys : List Int
  vals : List Int
  roles_sid : List Int
  memids : List Int
  types : List MemberType
  info : Info
deriving DecidableEq

/-- Modelled from the spec: one plain (non-dense) node message. Its contents
never matter because decode_nodes is unimplemented in the source. -/
structure NodeMsg where
  id : Int
deriving DecidableEq

/-- Modelled from the spec: an entity group as the wire format encodes it - a
product of optional variants, of which exactly one should be populated. -/
structure PrimitiveGroup where
  nodes : List NodeMsg
  dense : Option DenseNodes
  ways : List WayMsg
  relations : List RelationMsg
deriving DecidableEq

/-- Modelled from the spec: a decoded block. The string table is taken after
the UTF-8 interning step of decode_block_to_objs (raw byte strings whose
bytes are not valid UTF-8 become none); the byte-level validation itself is
std library code outside the repository. -/
structure PrimitiveBlock where
  stringtable : List (Option String)
  granularity : Int
  lat_offset : Int
  lon_offset : Int
  date_granularity : Int
  primitivegroup : List PrimitiveGroup
deriving DecidableEq

/-- Modelled from the spec: the entity-type tag of the output model. -/
inductive OSMObjectType where
  | node
  | way
  | relation
deriving DecidableEq

/-- Modelled from the spec: the decoded node record (ArcNode of the crate
root). The coordinate pair stores the scaled integer values; the final f32
conversion is floating point and not modelled. -/
structure NodeObj where
  _id : Int
  _tags : Option (List (String × String))
  _lat_lon : Option (Int × Int)
  _deleted : Bool
  _changeset_id : Option Int
  _uid : Option Int
  _user : Option String
  _version : Option Int
  _timestamp : Option Int
deriving DecidableEq

/-- Modelled from the spec: the decoded way record (ArcWay of the crate
root). -/
structure WayObj where
  _id : Int
  _tags : List (String × String)
  _nodes : List Int
  _deleted : Bool
  _changeset_id : Option Int
  _uid : Option Int
  _user : Option String
  _version : Option Int
  _timestamp : Option Int
deriving DecidableEq

/-- Modelled from the spec: the decoded relation record (ArcRelation of the
crate root). -/
structure RelObj where
  _id : Int
  _tags : List (String × String)
  _members : List (OSMObjectType × Int × String)
  _deleted : Bool
  _changeset_id : Option Int
  _uid : Option Int
  _user : Option String
  _version : Option Int
  _timestamp : Option Int
deriving DecidableEq

/-- Modelled from the spec: the output entity sum type (ArcOSMObj). -/
inductive OSMObj where
  | node (n : NodeObj)
  | way (w : WayObj)
  | relation (r : RelObj)
deriving DecidableEq

/-- The id field of a decoded entity. -/
def objId : OSMObj → Int
  | .node n => n._id
  | .way w => w._id
  | .relation r => r._id

/-- The timestamp field of a decoded entity. -/
def objTimestamp : OSMObj → Option Int
  | .node n => n._timestamp
  | .way w => w._timestamp
  | .relation r => r._timestamp

/-- The tag field of a decoded entity; ways and relations always carry a tag
list, nodes may carry none at all. -/
def objTags : OSMObj → Option (List (String × String))
  | .node n => n._tags
  | .way w => some w._tags
  | .relation r => some r._tags

/-- The coordinate field of a decoded entity. -/
def objLatLon : OSMObj → Option (Int × Int)
  | .node n => n._lat_lon
  | .way _ => none
  | .relation _ => none

/-- The uid field of a decoded entity. -/
def objUid : OSMObj → Option Int
  | .node n => n._uid
  | .way w => w._uid
  | .relation r => r._uid

/-- The running accumulators and the unread column suffixes of the
decode_dense_nodes loop of src/pbf/mod.rs. The source walks the parallel
columns with one shared index; the embedding consumes a suffix of each
column, which is the same access pattern (and the same out-of-bounds
panics) position by position. -/
structure DState where
  lats : List Int
  lons : List Int
  uids : List Int
  changesets : List Int
  user_sids : List Int
  timestamps : List Int
  versions : List Int
  visibles : List Bool
  kv : List Int
  lastId : Int
  lastLat : Int
  lastLon : Int
  lastTimestamp : Int
  lastChangeset : Int
  lastUid : Int
  lastUserSid : Int
deriving DecidableEq

/-- The sentinel-terminated inner tag loop of decode_dense_nodes: read one
index from keys_vals; 0 ends the tags of the current node, a non-zero value
is a key index and the immediately following entry is the value index of one
pair. Running off the end of the array is the out-of-bounds panic of
keys_vals[keys_vals_index]. Returns the collected index pairs and the unread
suffix. -/
def readTags : List Int → PRes (List (Int × Int) × List Int)
  | [] => .panic
  | k :: rest =>
    if k = 0 then .ok ([], rest)
    else
      match rest with
      | [] => .panic
      | v :: rest2 => (readTags rest2).map (fun p => ((k, v) :: p.1, p.2))

/-- Resolution of the collected dense tag index pairs through the string
table, as the map + filter_map of the source: every index of every pair is
looked up (panicking when out of bounds), and a pair either of whose sides
is absent is dropped. -/
def resolveTags (st : List (Option String)) :
    List (Int × Int) → PRes (List (String × String))
  | [] => .ok []
  | (k, v) :: rest =>
    (stGet st k).bind fun ko =>
    (stGet st v).bind fun vo =>
    (resolveTags st rest).map fun tl =>
      match ko, vo with
      | some ks, some vs => (ks, vs) :: tl
      | _, _ => tl

/-- The per-node tag step of decode_dense_nodes: when has_tags (keys_vals was
non-empty at entry to the group) the sentinel loop runs and its pairs are
resolved, otherwise the node gets no tag mapping at all and the array is not
touched. -/
def tagsStep (st : List (Option String)) (has_tags : Bool) (kv : List Int) :
    PRes (Option (List (String × String)) × List Int) :=
  if has_tags then
    (readTags kv).bind fun p =>
      (resolveTags st p.1).map fun tags => (some tags, p.2)
  else .ok (none, kv)

/-- One iteration of the decode_dense_nodes loop: delta-accumulate id,
latitude, longitude, then tags, then changeset, uid, user string index and
timestamp (the timestamp accumulator stores the value already multiplied by
date_granularity), assert that the uid is below i32::MAX, and build the node,
resolving the accumulated user string index with unwrap. -/
def denseStep (st : List (Option String))
    (granularity lat_offset lon_offset date_granularity : Int)
    (has_tags : Bool) (d : Int) (s : DState) : PRes (NodeObj × DState) :=
  let id := d + s.lastId
  (headP s.lats).bind fun dlat =>
  (headP s.lons).bind fun dlon =>
  let lat := dlat.1 + s.lastLat
  let lon := dlon.1 + s.lastLon
  let latc := lat_offset + granularity * lat
  let lonc := lon_offset + granularity * lon
  (tagsStep st has_tags s.kv).bind fun tg =>
  (headP s.changesets).bind fun dcs =>
  (headP s.uids).bind fun duid =>
  (headP s.user_sids).bind fun dsid =>
  (headP s.timestamps).bind fun dts =>
  let changeset_id := dcs.1 + s.lastChangeset
  let uid_id := duid.1 + s.lastUid
  let user_sid := dsid.1 + s.lastUserSid
  let timestamp := (toI32 dts.1 + s.lastTimestamp) * date_granularity
  (assertP (uid_id < 2147483647)).bind fun _ =>
  let vis := headD s.visibles true
  (stGetUnwrap st user_sid).bind fun user =>
  (headP s.versions).bind fun ver =>
  .ok
    ({ _id := id,
       _tags := tg.1,
       _lat_lon := some (latc, lonc),
       _deleted := !vis.1,
       _changeset_id := some (toU32 changeset_id),
       _uid := some (toU32 uid_id),
       _user := some user,
       _version := some (toU32 ver.1),
       _timestamp := some timestamp },
     { lats := dlat.2, lons := dlon.2, uids := duid.2, changesets := dcs.2,
       user_sids := dsid.2, timestamps := dts.2, versions := ver.2,
       visibles := vis.2, kv := tg.2,
       lastId := id, lastLat := lat, lastLon := lon,
       lastTimestamp := timestamp, lastChangeset := changeset_id,
       lastUid := uid_id, lastUserSid := user_sid })

/-- The main loop of decode_dense_nodes: one iteration per entry of the id
column, threading the accumulator state. -/
def denseLoop (st : List (Option String))
    (granularity lat_offset lon_offset date_granularity : Int)
    (has_tags : Bool) : List Int → DState → PRes (List NodeObj)
  | [], _ => .ok []
  | d :: rest, s =>
    (denseStep st granularity lat_offset lon_offset date_granularity
        has_tags d s).bind fun r =>
      (denseLoop st granularity lat_offset lon_offset date_granularity
          has_tags rest r.2).map (r.1 :: ·)

/-- The empty dense payload that get_dense yields when the field is absent. -/
def emptyDense : DenseNodes :=
  { id := [], lat := [], lon := [], keys_vals := [],
    denseinfo :=
      { uid := [], changeset := [], user_sid := [], timestamp := [],
        version := [], visible := [] } }

/-- decode_dense_nodes of src/pbf/mod.rs: all seven accumulators seeded at
zero, has_tags decided once from the emptiness of keys_vals, one node pushed
per id entry. -/
def decode_dense_nodes (pg : PrimitiveGroup)
    (granularity lat_offset lon_offset date_granularity : Int)
    (st : List (Option String)) : PRes (List OSMObj) :=
  let dense := pg.dense.getD emptyDense
  let has_tags := !dense.keys_vals.isEmpty
  (denseLoop st granularity lat_offset lon_offset date_granularity has_tags
      dense.id
      { lats := dense.lat, lons := dense.lon, uids := dense.denseinfo.uid,
        changesets := dense.denseinfo.changeset,
        user_sids := dense.denseinfo.user_sid,
        timestamps := dense.denseinfo.timestamp,
        versions := dense.denseinfo.version,
        visibles := dense.denseinfo.visible, kv := dense.keys_vals,
        lastId := 0, lastLat := 0, lastLon := 0, lastTimestamp := 0,
        lastChangeset := 0, lastUid := 0, lastUserSid := 0 }).map
    (List.map OSMObj.node)

/-- decode_nodes of src/pbf/mod.rs is unimplemented!: reaching it aborts. -/
def decode_nodes (pg : PrimitiveGroup)
    (_granularity _lat_offset _lon_offset _date_granularity : Int)
    (st : List (Option String)) : PRes (List OSMObj) :=
  .panic

/-- The lazily zipped tag resolution of decode_ways (and, identically, of
decode_relations): key and value index iterators are zipped - truncating at
the shorter - and each consumed index is looked up (panicking when out of
bounds); a pair either of whose sides is absent is dropped. -/
def tagsZipResolve (st : List (Option String)) :
    List Int → List Int → PRes (List (String × String))
  | k :: ks, v :: vs =>
    (stGet st k).bind fun ko =>
    (stGet st v).bind fun vo =>
    (tagsZipResolve st ks vs).map fun tl =>
      match ko, vo with
      | some ks2, some vs2 => (ks2, vs2) :: tl
      | _, _ => tl
  | _, _ => .ok []

/-- The inner delta loop over way.get_refs()[1..]: each reference is the
previous absolute value plus the next delta, pushed as it is computed. -/
def refsGo (last : Int) : List Int → List Int
  | [] => []
  | n :: rest => (n + last) :: refsGo (n + last) rest

/-- The node-reference decoding of decode_ways: an empty array gives an empty
list, otherwise the first reference is absolute and the rest accumulate. -/
def decodeWayRefs : List Int → List Int
  | [] => []
  | r0 :: rest => r0 :: refsGo r0 rest

/-- Decoding of one way of decode_ways: resolve tags, delta-decode the node
references, then build the record; the author name lookup unwraps and panics
on an absent entry. -/
def decodeWayOne (st : List (Option String)) (w : WayMsg) : PRes OSMObj :=
  (tagsZipResolve st w.keys w.vals).bind fun tags =>
  let nodes := decodeWayRefs w.refs
  (stGetUnwrap st w.info.user_sid).bind fun user =>
  .ok (OSMObj.way
    { _id := w.id,
      _tags := tags,
      _nodes := nodes,
      _deleted := !w.info.visible,
      _changeset_id := some (toU32 w.info.changeset),
      _uid := some (toU32 w.info.uid),
      _user := some user,
      _version := some (toU32 w.info.version),
      _timestamp := some w.info.timestamp })

/-- The loop of decode_ways over the way list, pushing in order. -/
def decodeWaysList (st : List (Option String)) : List WayMsg → PRes (List OSMObj)
  | [] => .ok []
  | w :: rest =>
    (decodeWayOne st w).bind fun o =>
      (decodeWaysList st rest).map (o :: ·)

/-- decode_ways of src/pbf/mod.rs. -/
def decode_ways (pg : PrimitiveGroup)
    (_granularity _lat_offset _lon_offset _date_granularity : Int)
    (st : List (Option String)) : PRes (List OSMObj) :=
  decodeWaysList st pg.ways

/-- The wire member-type enumeration mapped into the output model, as the
match of decode_relations. -/
def memTypeMap : MemberType → OSMObjectType
  | .NODE => .node
  | .WAY => .way
  | .RELATION => .relation

/-- The inner delta loop over relation.get_memids()[1..], duplicated from the
way loop in the source. -/
def memidsGo (last : Int) : List Int → List Int
  | [] => []
  | n :: rest => (n + last) :: memidsGo (n + last) rest

/-- The member-id decoding of decode_relations: first absolute, rest
cumulative. -/
def decodeMemids : List Int → List Int
  | [] => []
  | r0 :: rest => r0 :: memidsGo r0 rest

/-- The member zip of decode_relations: types, decoded member ids and role
string indices zipped - truncating at the shortest - with each consumed role
index looked up (panicking when out of bounds) and the whole member dropped
when the role is absent. -/
def relMembers (st : List (Option String)) :
    List MemberType → List Int → List Int →
    PRes (List (OSMObjectType × Int × String))
  | t :: ts, i :: is, r :: rs =>
    (stGet st r).bind fun ro =>
    (relMembers st ts is rs).map fun tl =>
      match ro with
      | some role => (memTypeMap t, i, role) :: tl
      | none => tl
  | _, _, _ => .ok []

/-- Decoding of one relation of decode_relations: tags as for ways, members
zipped and filtered, metadata absolute; the author name lookup unwraps and
panics on an absent entry. -/
def decodeRelationOne (st : List (Option String)) (rl : RelationMsg) :
    PRes OSMObj :=
  (tagsZipResolve st rl.keys rl.vals).bind fun tags =>
  let member_ids := decodeMemids rl.memids
  (relMembers st rl.types member_ids rl.roles_sid).bind fun members =>
  (stGetUnwrap st rl.info.user_sid).bind fun user =>
  .ok (OSMObj.relation
    { _id := rl.id,
      _tags := tags,
      _members := members,
      _deleted := !rl.info.visible,
      _changeset_id := some (toU32 rl.info.changeset),
      _uid := some (toU32 rl.info.uid),
      _user := some user,
      _version := some (toU32 rl.info.version),
      _timestamp := some rl.info.timestamp })

/-- The loop of decode_relations over the relation list, pushing in order. -/
def decodeRelationsList (st : List (Option String)) :
    List RelationMsg → PRes (List OSMObj)
  | [] => .ok []
  | rl :: rest =>
    (decodeRelationOne st rl).bind fun o =>
      (decodeRelationsList st rest).map (o :: ·)

/-- decode_relations of src/pbf/mod.rs. -/
def decode_relations (pg : PrimitiveGroup)
    (_granularity _lat_offset _lon_offset _date_granularity : Int)
    (st : List (Option String)) : PRes (List OSMObj) :=
  decodeRelationsList st pg.relations

/-- decode_primitive_group_to_objs of src/pbf/mod.rs: divide date_granularity
by 1000 (Rust i32 division truncates toward zero), then dispatch on the first
populated variant in the fixed order plain nodes, dense, ways, relations;
the final arm is unreachable!, which aborts the process. -/
def decode_primitive_group_to_objs (pg : PrimitiveGroup)
    (granularity lat_offset lon_offset date_granularity : Int)
    (st : List (Option String)) : PRes (List OSMObj) :=
  let dg := Int.tdiv date_granularity 1000
  if !pg.nodes.isEmpty then
    decode_nodes pg granularity lat_offset lon_offset dg st
  else if pg.dense.isSome then
    decode_dense_nodes pg granularity lat_offset lon_offset dg st
  else if !pg.ways.isEmpty then
    decode_ways pg granularity lat_offset lon_offset dg st
  else if !pg.relations.isEmpty then
    decode_relations pg granularity lat_offset lon_offset dg st
  else .panic

/-- The group loop of decode_block_to_objs: every group of the block is
decoded into the one shared results vector, in block order. -/
def decodeGroups (granularity lat_offset lon_offset date_granularity : Int)
    (st : List (Option String)) : List PrimitiveGroup → PRes (List OSMObj)
  | [] => .ok []
  | g :: rest =>
    (decode_primitive_group_to_objs g granularity lat_offset lon_offset
        date_granularity st).bind fun objs =>
      (decodeGroups granularity lat_offset lon_offset date_granularity st
          rest).map (objs ++ ·)

/-- decode_block_to_objs of src/pbf/mod.rs, starting from the block with its
string table already interned. -/
def decode_block_to_objs (b : PrimitiveBlock) : PRes (List OSMObj) :=
  decodeGroups b.granularity b.lat_offset b.lon_offset b.date_granularity
    b.stringtable b.primitivegroup

/-- PBFReader::next of src/pbf/mod.rs driven until exhaustion, collecting
every served entity. The buffer is the Rust Vec in its own order: serving
pops the last element; a refill decodes the next block into a batch and
reverses it before it becomes the buffer. The blob framing and protobuf
parse that precede decode_block_to_objs are external library calls and the
stream is given as the list of parsed blocks. -/
def pbfDrain : List PrimitiveBlock → List OSMObj → PRes (List OSMObj)
  | blocks, buf =>
    if hb : buf = [] then
      match blocks with
      | [] => .ok []
      | b :: bs =>
        (decode_block_to_objs b).bind fun objs => pbfDrain bs objs.reverse
    else
      match buf.getLast? with
      | some o => (pbfDrain blocks buf.dropLast).map (o :: ·)
      | none => .ok []
termination_by blocks buf => (blocks.length, buf.length)
decreasing_by
  · simp_wf
    apply Prod.Lex.left
    simp
  · simp_wf
    apply Prod.Lex.right
    cases buf with
    | nil => simp at hb
    | cons x xs => simp [List.dropLast]

/-- The order the specification demands of the buffered entity iterator:
blocks decoded in stream order, each batch already in group and decoder
order, batches concatenated. Written from the words of the spec for the
refinement comparison with pbfDrain. -/
def fileOrderDecode : List PrimitiveBlock → PRes (List OSMObj)
  | [] => .ok []
  | b :: bs =>
    (decode_block_to_objs b).bind fun objs =>
      (fileOrderDecode bs).map (objs ++ ·)

/-- Modelled from the spec: the length-prefixed frame header (fileformat.rs
is not under src/); only the kind string and the declared payload size are
read by the source. -/
structure BlobHeader where
  field_type : String
  datasize : Nat
deriving DecidableEq

/-- Modelled from the spec: the payload envelope - raw bytes, or compressed
bytes with an uncompressed-size hint. -/
structure Blob where
  raw : Option (List Nat)
  zlib_data : Option (List Nat)
  raw_size : Nat
deriving DecidableEq

/-- The loop body of get_next_osmdata_blob of src/pbf/mod.rs over a byte
stream: read a 4-byte big-endian length - any failure there, clean EOF or a
partial read, is turned into a None return by `.ok()?` - then read_exact the
header bytes and parse them with unwrap (truncation or a parse failure
panics), read_exact the declared payload bytes with unwrap, skip frames whose
kind is not OSMData, and parse the payload with unwrap. The protobuf parsers
are external generated code, passed as parameters. Fuel bounds the skip loop;
every iteration consumes at least four bytes, so length + 1 fuel is never
exhausted. -/
def getNextLoop (pH : List Nat → Option BlobHeader)
    (pB : List Nat → Option Blob) :
    Nat → List Nat → PRes (Option Blob × List Nat)
  | 0, _ => .panic
  | fuel + 1, bytes =>
    match bytes with
    | b0 :: b1 :: b2 :: b3 :: rest =>
      let size := ((b0 * 256 + b1) * 256 + b2) * 256 + b3
      if size ≤ rest.length then
        let header_bytes := rest.take size
        let rest2 := rest.drop size
        match pH header_bytes with
        | none => .panic
        | some bh =>
          if bh.datasize ≤ rest2.length then
            let blob_bytes := rest2.take bh.datasize
            let rest3 := rest2.drop bh.datasize
            if bh.field_type ≠ "OSMData" then getNextLoop pH pB fuel rest3
            else
              match pB blob_bytes with
              | none => .panic
              | some blob => .ok (some blob, rest3)
          else .panic
      else .panic
    | short => .ok (none, short)

/-- get_next_osmdata_blob of src/pbf/mod.rs on a finite byte stream. -/
def get_next_osmdata_blob (pH : List Nat → Option BlobHeader)
    (pB : List Nat → Option Blob) (bytes : List Nat) :
    PRes (Option Blob × List Nat) :=
  getNextLoop pH pB (bytes.length + 1) bytes

/-- The running prefix sum of a delta column as the spec states it: seeded at
an accumulator, every output is the accumulator plus the sum of the deltas so
far. -/
def prefixSums (acc : Int) : List Int → List Int
  | [] => []
  | d :: rest => (d + acc) :: prefixSums (d + acc) rest

/-- The timestamp recurrence the source actually computes: every output is
(delta cast to i32 plus the previous OUTPUT) times the pre-divided
date_granularity - the scaled value is written back into the accumulator. -/
def tsScan (dg acc : Int) : List Int → List Int
  | [] => []
  | d :: rest =>
    ((toI32 d + acc) * dg) :: tsScan dg ((toI32 d + acc) * dg) rest

/-- A group holding only a dense payload. -/
def mkDenseGroup (dn : DenseNodes) : PrimitiveGroup :=
  { nodes := [], dense := some dn, ways := [], relations := [] }

/-- A minimal string table: only the reserved empty sentinel at index 0. -/
def stEx1 : List (Option String) := [some ""]

/-- A string table whose index 1 entry is absent, as the interning step
stores for raw bytes that are not valid UTF-8. -/
def stAbsent : List (Option String) := [some "", none]

/-- A string table carrying two key strings and two value strings. -/
def st7 : List (Option String) :=
  [some "", some "k1", some "v1", some "k2", some "v2"]

/-- Three dense nodes with id deltas 5, 3, -1 - the delta example of the
spec - and small latitude and longitude deltas. -/
def g3ex : PrimitiveGroup :=
  mkDenseGroup
    { id := [5, 3, -1], lat := [1, 2, 3], lon := [10, -5, 1], keys_vals := [],
      denseinfo :=
        { uid := [0, 0, 0], changeset := [0, 0, 0], user_sid := [0, 0, 0],
          timestamp := [0, 0, 0], version := [1, 1, 1], visible := [] } }

/-- The nodes decoded from g3ex. -/
def c3objs : List OSMObj :=
  (decode_dense_nodes g3ex 100 0 0 1 stEx1).getD []

/-- Two dense nodes with timestamp deltas 1 and 0; decoded with block
date_granularity 2000, so the pre-divided factor is 2. -/
def g4ex : PrimitiveGroup :=
  mkDenseGroup
    { id := [1, 1], lat := [0, 0], lon := [0, 0], keys_vals := [],
      denseinfo :=
        { uid := [0, 0], changeset := [0, 0], user_sid := [0, 0],
          timestamp := [1, 0], version := [1, 1], visible := [] } }

/-- The objects decoded from g4ex through the dispatcher. -/
def c4objs : List OSMObj :=
  (decode_primitive_group_to_objs g4ex 100 0 0 2000 stEx1).getD []

/-- A dense node whose accumulated user-name index 1 resolves to an absent
string-table entry. -/
def g1dense : PrimitiveGroup :=
  mkDenseGroup
    { id := [1], lat := [0], lon := [0], keys_vals := [],
      denseinfo :=
        { uid := [0], changeset := [0], user_sid := [1], timestamp := [0],
          version := [1], visible := [] } }

/-- A way whose metadata user-name index 1 resolves to an absent entry. -/
def g1way : PrimitiveGroup :=
  { nodes := [], dense := none,
    ways :=
      [{ id := 1, keys := [], vals := [], refs := [1],
         info := { version := 1, timestamp := 10, changeset := 5, uid := 7,
                   user_sid := 1, visible := true } }],
    relations := [] }

/-- A relation whose metadata user-name index 1 resolves to an absent
entry. -/
def g1rel : PrimitiveGroup :=
  { nodes := [], dense := none, ways := [],
    relations :=
      [{ id := 1, keys := [], vals := [], roles_sid := [], memids := [],
         types := [],
         info := { version := 1, timestamp := 10, changeset := 5, uid := 7,
                   user_sid := 1, visible := true } }] }

/-- A dense group whose id column has one entry but whose latitude column is
empty: the parallel columns are misaligned. -/
def g2align : PrimitiveGroup :=
  mkDenseGroup
    { id := [1], lat := [], lon := [], keys_vals := [],
      denseinfo :=
        { uid := [0], changeset := [0], user_sid := [0], timestamp := [0],
          version := [1], visible := [] } }

/-- A dense group whose flat tag-index stream ends after a key index, before
the value index and before any 0 terminator. -/
def g2noterm : PrimitiveGroup :=
  mkDenseGroup
    { id := [1], lat := [0], lon := [0], keys_vals := [5],
      denseinfo :=
        { uid := [0], changeset := [0], user_sid := [0], timestamp := [0],
          version := [1], visible := [] } }

/-- Two dense nodes with the tag-index stream [1, 2, 0, 3, 4, 0]. -/
def g7ex : PrimitiveGroup :=
  mkDenseGroup
    { id := [1, 1], lat := [0, 0], lon := [0, 0],
      keys_vals := [1, 2, 0, 3, 4, 0],
      denseinfo :=
        { uid := [0, 0], changeset := [0, 0], user_sid := [0, 0],
          timestamp := [0, 0], version := [1, 1], visible := [] } }

/-- A dense node whose reconstructed user id is 2147483647, exactly
i32::MAX. -/
def g8bad : PrimitiveGroup :=
  mkDenseGroup
    { id := [1], lat := [0], lon := [0], keys_vals := [],
      denseinfo :=
        { uid := [2147483647], changeset := [0], user_sid := [0],
          timestamp := [0], version := [1], visible := [] } }

/-- The same dense node with user id 2147483646, one below i32::MAX. -/
def g8ok : PrimitiveGroup :=
  mkDenseGroup
    { id := [1], lat := [0], lon := [0], keys_vals := [],
      denseinfo :=
        { uid := [2147483646], changeset := [0], user_sid := [0],
          timestamp := [0], version := [1], visible := [] } }

/-- The nodes decoded from the empty-keys_vals group g4ex directly by the
dense decoder. -/
def c10objs : List OSMObj :=
  (decode_dense_nodes g4ex 100 0 0 1 stEx1).getD []

/-- First payload block of the end-to-end order example: one group of two
dense nodes with ids 1 and 2. -/
def blk1ex : PrimitiveBlock :=
  { stringtable := stEx1, granularity := 100, lat_offset := 0,
    lon_offset := 0, date_granularity := 1000,
    primitivegroup :=
      [mkDenseGroup
        { id := [1, 1], lat := [0, 0], lon := [0, 0], keys_vals := [],
          denseinfo :=
            { uid := [0, 0], changeset := [0, 0], user_sid := [0, 0],
              timestamp := [0, 0], version := [1, 1], visible := [] } }] }

/-- Second payload block of the end-to-end order example: one group of two
dense nodes with ids 3 and 4. -/
def blk2ex : PrimitiveBlock :=
  { stringtable := stEx1, granularity := 100, lat_offset := 0,
    lon_offset := 0, date_granularity := 1000,
    primitivegroup :=
      [mkDenseGroup
        { id := [3, 1], lat := [0, 0], lon := [0, 0], keys_vals := [],
          denseinfo :=
            { uid := [0, 0], changeset := [0, 0], user_sid := [0, 0],
              timestamp := [0, 0], version := [1, 1], visible := [] } }] }

@[simp] theorem PRes.bind_ok {α β : Type} (a : α) (f : α → PRes β) :
    (PRes.ok a).bind f = f a := rfl

@[simp] theorem PRes.bind_panic {α β : Type} (f : α → PRes β) :
    (PRes.panic : PRes α).bind f = .panic := rfl

@[simp] theorem PRes.map_ok {α β : Type} (f : α → β) (a : α) :
    (PRes.ok a).map f = .ok (f a) := rfl

@[simp] theorem PRes.map_panic {α β : Type} (f : α → β) :
    (PRes.panic : PRes α).map f = .panic := rfl

theorem PRes.bind_eq_ok {α β : Type} {x : PRes α} {f : α → PRes β} {b : β} :
    x.bind f = .ok b ↔ ∃ a, x = .ok a ∧ f a = .ok b := by
  cases x <;> simp [PRes.bind]

theorem PRes.map_eq_ok {α β : Type} {x : PRes α} {f : α → β} {b : β} :
    x.map f = .ok b ↔ ∃ a, x = .ok a ∧ f a = b := by
  cases x <;> simp [PRes.map]

theorem PRes.map_map {α β γ : Type} (x : PRes α) (f : α → β) (g : β → γ) :
    (x.map f).map g = x.map (fun a => g (f a)) := by
  cases x <;> simp [PRes.map]

theorem headP_eq_ok {α : Type} {l : List α} {a : α} {r : List α} :
    headP l = .ok (a, r) ↔ l = a :: r := by
  cases l <;> simp [headP]

theorem denseStep_ok_inv {st : List (Option String)} {gran lo ln dg : Int}
    {ht : Bool} {d : Int} {s : DState} {node : NodeObj} {s1 : DState}
    (h : denseStep st gran lo ln dg ht d s = .ok (node, s1)) :
    node._id = d + s.lastId ∧ s1.lastId = d + s.lastId
    ∧ (∃ dlat latsR, s.lats = dlat :: latsR ∧ s1.lats = latsR
        ∧ s1.lastLat = dlat + s.lastLat)
    ∧ (∃ dlon lonsR, s.lons = dlon :: lonsR ∧ s1.lons = lonsR
        ∧ s1.lastLon = dlon + s.lastLon)
    ∧ node._lat_lon = some (lo + gran * s1.lastLat, ln + gran * s1.lastLon)
    ∧ (∃ dts tsR, s.timestamps = dts :: tsR ∧ s1.timestamps = tsR
        ∧ s1.lastTimestamp = (toI32 dts + s.lastTimestamp) * dg
        ∧ node._timestamp = some s1.lastTimestamp)
    ∧ (ht = false → node._tags = none) := by
  simp only [denseStep, PRes.bind_eq_ok, PRes.ok.injEq, Prod.mk.injEq] at h
  obtain ⟨⟨dlat, latsR⟩, hlat, ⟨dlon, lonsR⟩, hlon, tg, htg,
    ⟨dcs, csR⟩, hcs, ⟨duid, uidsR⟩, huid, ⟨dsid, sidsR⟩, hsid,
    ⟨dts, tsR⟩, hts, u, hassert, user, huser, ⟨ver, versR⟩, hver,
    hnode, hstate⟩ := h
  subst hnode
  subst hstate
  rw [headP_eq_ok] at hlat hlon hts
  refine ⟨rfl, rfl, ⟨dlat, latsR, hlat, rfl, rfl⟩,
    ⟨dlon, lonsR, hlon, rfl, rfl⟩, rfl,
    ⟨dts, tsR, hts, rfl, rfl, rfl⟩, ?_⟩
  intro hht
  subst hht
  simp only [tagsStep, if_neg (by simp : ¬(false = true)), PRes.ok.injEq] at htg
  subst htg
  rfl

theorem denseLoop_ok_ids {st : List (Option String)} {gran lo ln dg : Int}
    {ht : Bool} :
    ∀ (ids : List Int) (s : DState) (nodes : List NodeObj),
      denseLoop st gran lo ln dg ht ids s = .ok nodes →
      nodes.map (fun nd => nd._id) = prefixSums s.lastId ids := by
  intro ids
  induction ids with
  | nil =>
    intro s nodes h
    simp only [denseLoop, PRes.ok.injEq] at h
    subst h
    simp [prefixSums]
  | cons d rest ih =>
    intro s nodes h
    simp only [denseLoop, PRes.bind_eq_ok, PRes.map_eq_ok] at h
    obtain ⟨⟨node, s1⟩, hstep, tail, htail, rfl⟩ := h
    obtain ⟨hid, hlast, -, -, -, -, -⟩ := denseStep_ok_inv hstep
    simp only [List.map_cons, prefixSums, hid]
    rw [ih s1 tail htail, hlast]

theorem denseLoop_ok_latlon {st : List (Option String)} {gran lo ln dg : Int}
    {ht : Bool} :
    ∀ (ids : List Int) (s : DState) (nodes : List NodeObj),
      denseLoop st gran lo ln dg ht ids s = .ok nodes →
      nodes.map (fun nd => nd._lat_lon) =
        List.zipWith (fun a b => some (lo + gran * a, ln + gran * b))
          (prefixSums s.lastLat (s.lats.take ids.length))
          (prefixSums s.lastLon (s.lons.take ids.length)) := by
  intro ids
  induction ids with
  | nil =>
    intro s nodes h
    simp only [denseLoop, PRes.ok.injEq] at h
    subst h
    simp [prefixSums]
  | cons d rest ih =>
    intro s nodes h
    simp only [denseLoop, PRes.bind_eq_ok, PRes.map_eq_ok] at h
    obtain ⟨⟨node, s1⟩, hstep, tail, htail, rfl⟩ := h
    obtain ⟨-, -, ⟨dlat, latsR, hlats, hlats1, hlastLat⟩,
      ⟨dlon, lonsR, hlons, hlons1, hlastLon⟩, hll, -, -⟩ :=
      denseStep_ok_inv hstep
    have htl := ih s1 tail htail
    rw [hlats1, hlons1] at htl
    simp only [List.map_cons, hlats, hlons, List.length_cons, List.take_succ_cons,
      prefixSums, List.zipWith_cons_cons, htl, hll, hlastLat, hlastLon]

theorem denseLoop_ok_ts {st : List (Option String)} {gran lo ln dg : Int}
    {ht : Bool} :
    ∀ (ids : List Int) (s : DState) (nodes : List NodeObj),
      denseLoop st gran lo ln dg ht ids s = .ok nodes →
      nodes.map (fun nd => nd._timestamp) =
        (tsScan dg s.lastTimestamp (s.timestamps.take ids.length)).map some := by
  intro ids
  induction ids with
  | nil =>
    intro s nodes h
    simp only [denseLoop, PRes.ok.injEq] at h
    subst h
    simp [tsScan]
  | cons d rest ih =>
    intro s nodes h
    simp only [denseLoop, PRes.bind_eq_ok, PRes.map_eq_ok] at h
    obtain ⟨⟨node, s1⟩, hstep, tail, htail, rfl⟩ := h
    obtain ⟨-, -, -, -, -, ⟨dts, tsR, hts, hts1, hlastTs, hnodeTs⟩, -⟩ :=
      denseStep_ok_inv hstep
    have htl := ih s1 tail htail
    rw [hts1] at htl
    simp only [List.map_cons, hts, List.length_cons, List.take_succ_cons,
      tsScan, htl, hnodeTs, hlastTs]

theorem denseLoop_ok_tags {st : List (Option String)} {gran lo ln dg : Int} :
    ∀ (ids : List Int) (s : DState) (nodes : List NodeObj),
      denseLoop st gran lo ln dg false ids s = .ok nodes →
      ∀ nd ∈ nodes, nd._tags = none := by
  intro ids
  induction ids with
  | nil =>
    intro s nodes h
    simp only [denseLoop, PRes.ok.injEq] at h
    subst h
    simp
  | cons d rest ih =>
    intro s nodes h
    simp only [denseLoop, PRes.bind_eq_ok, PRes.map_eq_ok] at h
    obtain ⟨⟨node, s1⟩, hstep, tail, htail, rfl⟩ := h
    obtain ⟨-, -, -, -, -, -, htags⟩ := denseStep_ok_inv hstep
    intro nd hnd
    rcases List.mem_cons.mp hnd with hnd | hnd
    · subst hnd
      exact htags rfl
    · exact ih s1 tail htail nd hnd

theorem prefixSums_get :
    ∀ (l : List Int) (acc : Int) (i : Nat)
      (h : i < (prefixSums acc l).length),
      (prefixSums acc l).get ⟨i, h⟩ = acc + (l.take (i + 1)).sum := by
  intro l
  induction l with
  | nil =>
    intro acc i h
    simp [prefixSums] at h
  | cons d rest ih =>
    intro acc i h
    cases i with
    | zero =>
      simp [prefixSums, List.take_succ_cons]
      ring
    | succ n =>
      have h2 : n < (prefixSums (d + acc) rest).length := by
        simpa [prefixSums] using h
      have := ih (d + acc) n h2
      simp only [prefixSums, List.get_cons_succ] at *
      rw [this]
      simp [List.take_succ_cons, List.sum_cons]
      ring

theorem refsGo_eq (l : List Int) : ∀ a : Int, refsGo a l = prefixSums a l := by
  induction l with
  | nil => intro a; rfl
  | cons d rest ih => intro a; simp [refsGo, prefixSums, ih]

theorem memidsGo_eq (l : List Int) :
    ∀ a : Int, memidsGo a l = prefixSums a l := by
  induction l with
  | nil => intro a; rfl
  | cons d rest ih => intro a; simp [memidsGo, prefixSums, ih]

theorem decode_dense_nodes_ok_inv {pg : PrimitiveGroup} {dn : DenseNodes}
    {gran lo ln dg : Int} {st : List (Option String)} {objs : List OSMObj}
    (hdn : pg.dense = some dn)
    (h : decode_dense_nodes pg gran lo ln dg st = .ok objs) :
    ∃ nodes,
      denseLoop st gran lo ln dg (!dn.keys_vals.isEmpty) dn.id
        { lats := dn.lat, lons := dn.lon, uids := dn.denseinfo.uid,
          changesets := dn.denseinfo.changeset,
          user_sids := dn.denseinfo.user_sid,
          timestamps := dn.denseinfo.timestamp,
          versions := dn.denseinfo.version,
          visibles := dn.denseinfo.visible, kv := dn.keys_vals,
          lastId := 0, lastLat := 0, lastLon := 0, lastTimestamp := 0,
          lastChangeset := 0, lastUid := 0, lastUserSid := 0 } = .ok nodes
      ∧ objs = nodes.map OSMObj.node := by
  simp only [decode_dense_nodes, hdn, Option.getD_some, PRes.map_eq_ok] at h
  obtain ⟨nodes, hloop, rfl⟩ := h
  exact ⟨nodes, hloop, rfl⟩

theorem pbfDrain_buf (blocks : List PrimitiveBlock) (buf : List OSMObj) :
    pbfDrain blocks buf = (pbfDrain blocks []).map (buf.reverse ++ ·) := by
  induction buf using List.reverseRecOn with
  | nil =>
    cases pbfDrain blocks [] <;> simp [PRes.map]
  | append_singleton l a ih =>
    rw [pbfDrain.eq_def]
    dsimp only
    have hne : ¬(l ++ [a] = []) := by simp
    rw [dif_neg hne]
    have hlast : (l ++ [a]).getLast? = some a := by
      simp [List.getLast?_concat]
    have hdrop : (l ++ [a]).dropLast = l := by
      simp
    rw [hlast, hdrop, ih]
    dsimp only
    rw [PRes.map_map]
    cases pbfDrain blocks [] <;> simp [PRes.map]

theorem pbfDrain_eq_fileOrder (blocks : List PrimitiveBlock) :
    pbfDrain blocks [] = fileOrderDecode blocks := by
  induction blocks with
  | nil =>
    rw [pbfDrain.eq_def]
    rfl
  | cons b bs ih =>
    rw [pbfDrain.eq_def]
    dsimp only
    rw [dif_pos rfl]
    show (decode_block_to_objs b).bind (fun objs => pbfDrain bs objs.reverse) =
      fileOrderDecode (b :: bs)
    cases hdec : decode_block_to_objs b with
    | panic => simp [fileOrderDecode, hdec, PRes.bind]
    | ok objs =>
      simp only [fileOrderDecode, hdec, PRes.bind_ok]
      rw [pbfDrain_buf bs objs.reverse, List.reverse_reverse, ih]

/-- C1: the claim demands that an "absent" user-name string-table entry of a
dense node, way or relation surface as a typed EncodingError; the source
instead aborts via Option::unwrap. This theorem evaluates the embedded code
at the failing inputs: a dense node, a way and a relation whose user-name
index 1 resolves to an absent entry all make the decoder panic. -/
theorem c1_absent_user_name_aborts :
    decode_primitive_group_to_objs g1dense 100 0 0 1000 stAbsent = .panic
    ∧ decode_primitive_group_to_objs g1way 100 0 0 1000 stAbsent = .panic
    ∧ decode_primitive_group_to_objs g1rel 100 0 0 1000 stAbsent = .panic :=
  ⟨by decide, by decide, by decide⟩

/-- C2: the claim demands that misaligned dense columns or a tag-index
stream lacking its 0 terminator not crash the process; the source panics on
the out-of-bounds slice index. This theorem evaluates the embedded code at
the failing inputs: a one-node group with an empty latitude column, and a
one-node group whose tag stream ends after a key index, both panic. -/
theorem c2_misaligned_columns_abort :
    decode_primitive_group_to_objs g2align 100 0 0 1000 stEx1 = .panic
    ∧ decode_primitive_group_to_objs g2noterm 100 0 0 1000 stEx1 = .panic :=
  ⟨by decide, by decide⟩

/-- C3: delta-coded columns reconstruct as running prefix sums with the
accumulator seeded at zero per group: dense ids, latitudes and longitudes
(decode_dense_nodes seeds every accumulator at 0), way node references and
relation member ids (first absolute, rest cumulative); and prefixSums from
seed 0 is exactly the take-and-sum prefix sum of the claim. -/
theorem c3_delta_prefix_sums :
    (∀ (pg : PrimitiveGroup) (dn : DenseNodes) (gran lo ln dg : Int)
       (st : List (Option String)) (objs : List OSMObj),
       pg.dense = some dn →
       decode_dense_nodes pg gran lo ln dg st = .ok objs →
       objs.map objId = prefixSums 0 dn.id
       ∧ objs.map objLatLon =
           List.zipWith (fun a b => some (lo + gran * a, ln + gran * b))
             (prefixSums 0 (dn.lat.take dn.id.length))
             (prefixSums 0 (dn.lon.take dn.id.length)))
    ∧ (∀ refs : List Int, decodeWayRefs refs = prefixSums 0 refs)
    ∧ (∀ memids : List Int, decodeMemids memids = prefixSums 0 memids)
    ∧ (∀ (l : List Int) (i : Nat) (h : i < (prefixSums 0 l).length),
        (prefixSums 0 l).get ⟨i, h⟩ = (l.take (i + 1)).sum) := by
  refine ⟨?_, ?_, ?_, ?_⟩
  · intro pg dn gran lo ln dg st objs hdn h
    obtain ⟨nodes, hloop, rfl⟩ := decode_dense_nodes_ok_inv hdn h
    have hids := denseLoop_ok_ids _ _ _ hloop
    have hll := denseLoop_ok_latlon _ _ _ hloop
    constructor
    · rw [List.map_map]
      have hc : objId ∘ OSMObj.node = fun nd => nd._id := rfl
      rw [hc]
      simpa using hids
    · rw [List.map_map]
      have hc : objLatLon ∘ OSMObj.node = fun nd => nd._lat_lon := rfl
      rw [hc]
      simpa using hll
  · intro refs
    cases refs with
    | nil => rfl
    | cons r0 rest => simp [decodeWayRefs, prefixSums, refsGo_eq]
  · intro memids
    cases memids with
    | nil => rfl
    | cons r0 rest => simp [decodeMemids, prefixSums, memidsGo_eq]
  · intro l i h
    have := prefixSums_get l 0 i h
    simpa using this

/-- C3 witness: the delta example of the spec, id deltas [5, 3, -1], decodes
to nodes with ids [5, 8, 7]. -/
theorem c3_delta_prefix_sums_witness :
    (decode_dense_nodes g3ex 100 0 0 1 stEx1 = .ok c3objs)
    ∧ c3objs.map objId = prefixSums 0 [5, 3, -1]
    ∧ prefixSums 0 [5, 3, -1] = [5, 8, 7] := by
  refine ⟨rfl, ?_, by decide⟩
  exact (c3_delta_prefix_sums.1 g3ex _ 100 0 0 1 stEx1 c3objs rfl rfl).1

/-- C4 counterexample: with block date_granularity 2000 (pre-divided factor
2) and timestamp deltas [1, 0], the claim predicts the second node carries
prefix sum (1 + 0) times 2 = 2, but the decoder yields 4, because the scaled
value is written back into the accumulator. -/
theorem c4_counterexample :
    (decode_primitive_group_to_objs g4ex 100 0 0 2000 stEx1).map
      (List.map objTimestamp) = .ok [some 2, some 4]
    ∧ Int.tdiv 2000 1000 * (toI32 1 + toI32 0) = 2
    ∧ (4 : Int) ≠ 2 :=
  ⟨by decide, by decide, by decide⟩

/-- C4 amended: the i-th dense-node timestamp follows the recurrence
t_i = (toI32 d_i + t_(i-1)) * g with t seeded at 0 and g = date_granularity
divided by 1000 (truncating), the scaled value being written back into the
accumulator; and the dispatcher indeed pre-divides date_granularity by 1000
before the dense decoder runs. -/
theorem c4_timestamp_recurrence :
    (∀ (pg : PrimitiveGroup) (dn : DenseNodes) (gran lo ln dg : Int)
       (st : List (Option String)) (objs : List OSMObj),
       pg.dense = some dn →
       decode_dense_nodes pg gran lo ln dg st = .ok objs →
       objs.map objTimestamp =
         (tsScan dg 0 (dn.denseinfo.timestamp.take dn.id.length)).map some)
    ∧ (∀ (pg : PrimitiveGroup) (gran lo ln dgran : Int)
       (st : List (Option String)),
       pg.nodes = [] → pg.dense.isSome = true →
       decode_primitive_group_to_objs pg gran lo ln dgran st =
         decode_dense_nodes pg gran lo ln (Int.tdiv dgran 1000) st) := by
  constructor
  · intro pg dn gran lo ln dg st objs hdn h
    obtain ⟨nodes, hloop, rfl⟩ := decode_dense_nodes_ok_inv hdn h
    have hts := denseLoop_ok_ts _ _ _ hloop
    rw [List.map_map]
    have hc : objTimestamp ∘ OSMObj.node = fun nd => nd._timestamp := rfl
    rw [hc]
    simpa using hts
  · intro pg gran lo ln dgran st hnodes hdense
    simp [decode_primitive_group_to_objs, hnodes, hdense]

/-- C4 amended witness: the counterexample group itself follows the
recurrence, giving timestamps 2 and 4. -/
theorem c4_timestamp_recurrence_witness :
    (decode_primitive_group_to_objs g4ex 100 0 0 2000 stEx1 = .ok c4objs)
    ∧ c4objs.map objTimestamp = (tsScan 2 0 [1, 0]).map some
    ∧ (tsScan 2 0 [1, 0]).map some = [some 2, some 4] := by
  refine ⟨rfl, ?_, by decide⟩
  have hd := c4_timestamp_recurrence.2 g4ex 100 0 0 2000 stEx1 rfl rfl
  have h := c4_timestamp_recurrence.1 g4ex _ 100 0 0 (Int.tdiv 2000 1000)
    stEx1 c4objs rfl (by rw [← hd]; rfl)
  exact h

/-- C5: the claim demands a FormatError for a group with no populated
variant; the source hits unreachable! and aborts. This theorem evaluates the
embedded dispatcher at the failing input: an entirely empty group panics for
every choice of the scalar parameters. The fixed priority order itself is
the if-else chain of decode_primitive_group_to_objs. -/
theorem c5_empty_group_aborts :
    ∀ (gran lo ln dgran : Int) (st : List (Option String)),
      decode_primitive_group_to_objs
        { nodes := [], dense := none, ways := [], relations := [] }
        gran lo ln dgran st = .panic :=
  fun _ _ _ _ _ => rfl

/-- C6: the buffered iterator serves entities in file order - the reverse
plus pop-from-end buffering of PBFReader::next is unobservable: draining the
iterator equals decoding the blocks in stream order and concatenating; and
the end-to-end example of two blocks of two dense nodes each yields the four
node ids in original file order. -/
theorem c6_file_order :
    (∀ blocks : List PrimitiveBlock,
      pbfDrain blocks [] = fileOrderDecode blocks)
    ∧ (pbfDrain [blk1ex, blk2ex] []).map (List.map objId) =
        .ok [1, 2, 3, 4] := by
  refine ⟨pbfDrain_eq_fileOrder, ?_⟩
  rw [pbfDrain_eq_fileOrder]
  decide

/-- C7: the flat tag-index stream is consumed strictly sequentially - the
stream [1, 2, 0, 3, 4, 0] gives the first node exactly the pair at indices
(1, 2) and the second exactly (3, 4), the 0 values consumed as terminators;
and a pair whose key resolves to an absent entry is silently dropped. -/
theorem c7_tag_stream :
    readTags [1, 2, 0, 3, 4, 0] = .ok ([(1, 2)], [3, 4, 0])
    ∧ readTags [3, 4, 0] = .ok ([(3, 4)], [])
    ∧ (decode_primitive_group_to_objs g7ex 100 0 0 1000 st7).map
        (List.map objTags) = .ok [some [("k1", "v1")], some [("k2", "v2")]]
    ∧ resolveTags stAbsent [(1, 0)] = .ok [] :=
  ⟨rfl, rfl, by decide, rfl⟩

/-- C8: the claim demands that a user id outside the valid positive 32-bit
range be reported as a typed RangeError; the source instead aborts through
assert!(uid < i32::MAX). This theorem evaluates the embedded code at the
failing input - uid exactly i32::MAX panics - and contrasts it with uid one
below the bound, which decodes. -/
theorem c8_uid_range_assert_aborts :
    decode_primitive_group_to_objs g8bad 100 0 0 1000 stEx1 = .panic
    ∧ decode_primitive_group_to_objs g8ok 100 0 0 1000 stEx1 ≠ .panic :=
  ⟨by decide, by decide⟩

/-- C9: the claim demands None exactly at a clean EOF on the length-prefix
boundary and a FramingError on any truncation; the source maps every failed
length read - clean EOF and 1-3 stray bytes alike - to None through .ok()?,
and panics through unwrap on a truncated header. This theorem evaluates the
embedded frame reader: the empty stream and a 2-byte partial prefix both
yield None (not an error), and a stream whose header is truncated panics,
for every choice of the external protobuf parsers. -/
theorem c9_partial_prefix_reports_none :
    ∀ (pH : List Nat → Option BlobHeader) (pB : List Nat → Option Blob)
      (a b : Nat),
      get_next_osmdata_blob pH pB [] = .ok (none, [])
      ∧ get_next_osmdata_blob pH pB [a, b] = .ok (none, [a, b])
      ∧ get_next_osmdata_blob pH pB [0, 0, 0, 5] = .panic :=
  fun _ _ _ _ => ⟨rfl, rfl, rfl⟩

/-- C10: a dense group whose flat key/value index array is empty gives every
node an absent tag mapping (none), not an empty map; and with has_tags false
the tag step returns none without touching the sentinel loop. -/
theorem c10_empty_keys_vals_no_tags :
    (∀ (pg : PrimitiveGroup) (dn : DenseNodes) (gran lo ln dg : Int)
       (st : List (Option String)) (objs : List OSMObj),
       pg.dense = some dn → dn.keys_vals = [] →
       decode_dense_nodes pg gran lo ln dg st = .ok objs →
       ∀ o ∈ objs, objTags o = none)
    ∧ (∀ (st : List (Option String)) (kv : List Int),
        tagsStep st false kv = .ok (none, kv)) := by
  constructor
  · intro pg dn gran lo ln dg st objs hdn hkv h
    obtain ⟨nodes, hloop, rfl⟩ := decode_dense_nodes_ok_inv hdn h
    rw [hkv] at hloop
    simp only [List.isEmpty_nil, Bool.not_true] at hloop
    intro o ho
    obtain ⟨nd, hnd, rfl⟩ := List.mem_map.mp ho
    have := denseLoop_ok_tags _ _ _ hloop nd hnd
    simpa [objTags] using this
  · intro st kv
    rfl

/-- C10 witness: the two-node empty-keys_vals group decodes with every node
carrying no tag mapping at all. -/
theorem c10_empty_keys_vals_no_tags_witness :
    (decode_dense_nodes g4ex 100 0 0 1 stEx1 = .ok c10objs)
    ∧ (∀ o ∈ c10objs, objTags o = none) := by
  refine ⟨rfl, ?_⟩
  exact c10_empty_keys_vals_no_tags.1 g4ex _ 100 0 0 1 stEx1 c10objs rfl rfl
    rfl
